import Mathlib

/-!
# Verification of the gb9k prompt-file protocol and streaming engine

Shallow embedding of the core of the gb9k CLI (`src/run.js`, with
`getAllCodeFiles` from the full `utils.js` iteration): the prompt-file
parser, the context assembler, the conversation-file append protocol, the
server-sent-event stream loop, and the usage/cost reconciler.

Modelling conventions:
* JavaScript strings are modelled as `List Char` (`Str`); the JS string
  methods used by the source (`includes`, `trim`, `split`, `startsWith`,
  `endsWith`, `slice`, regex scans) are given structural definitions below.
* File-system effects (`fs.readFile`, `fs.stat`, `fs.appendFile`,
  `process.stdout.write`, `console.error`) are modelled as explicit data:
  a `FileSys` record of functions for reads/stats, and an `Event` trace for
  the writes performed by the streaming loop.
* `JSON.parse` plus the `parsed.choices[0]?.delta?.content` /
  `parsed.usage` field accesses are an external builtin; they are modelled
  by an oracle `Str → ParseOutcome` passed to the stream loop.
* JS numbers used for prices are modelled as `ℚ` (exact arithmetic); token
  counts are `Nat`.  `Math.ceil(n / 4)` on naturals is `(n + 3) / 4`.
-/

/-- JavaScript strings, modelled as lists of characters. -/
abbrev Str := List Char

/-- Convert a Lean string literal to the `Str` model. -/
def str (s : String) : Str := s.data

/-- `strStarts s p` : does `s` start with `p` (JS `String.startsWith`). -/
def strStarts : Str → Str → Bool
  | _, [] => true
  | [], _ :: _ => false
  | a :: as, b :: bs => (a == b) && strStarts as bs

/-- `strContains s sub` : does `s` contain `sub` as a contiguous substring
(JS `String.includes`). -/
def strContains : Str → Str → Bool
  | [], sub => strStarts [] sub
  | a :: as, sub => strStarts (a :: as) sub || strContains as sub

/-- JS `String.includes` in source-argument order: `s.includes(sub)`. -/
def jsIncludes (s sub : Str) : Bool := strContains s sub

/-- `strEndsWith s p` : does `s` end with `p` (JS `String.endsWith`). -/
def strEndsWith (s p : Str) : Bool := strStarts s.reverse p.reverse

/-- Whitespace characters for JS `String.trim` (the source only ever trims
ASCII space/newline/tab/carriage-return). -/
def isWS (c : Char) : Bool := c == ' ' || c == '\n' || c == '\t' || c == '\r'

/-- JS `String.trim`: strip whitespace from both ends. -/
def jsTrim (s : Str) : Str :=
  ((s.dropWhile isWS).reverse.dropWhile isWS).reverse

/-- JS `String.split('\n')`. `"".split('\n') = [""]` and a trailing
newline yields a trailing empty piece, as in JS. -/
def splitLines : Str → List Str
  | [] => [[]]
  | c :: rest =>
    let r := splitLines rest
    if c == '\n' then [] :: r
    else
      match r with
      | h :: t => (c :: h) :: t
      | [] => [[c]]

/-- Split `s` at the first occurrence of `sub`, returning the part before
and the part after it; `none` when `sub` does not occur.  This models a
non-global JS regex match on a literal pattern. -/
def splitFirst (sub : Str) : Str → Option (Str × Str)
  | [] => if strStarts [] sub then some ([], []) else none
  | c :: rest =>
    if strStarts (c :: rest) sub then some ([], (c :: rest).drop sub.length)
    else
      match splitFirst sub rest with
      | some (pre, post) => some (c :: pre, post)
      | none => none

/-- Join a list of strings with a separator (JS `Array.join`). -/
def strJoinSep (sep : Str) : List Str → Str
  | [] => []
  | [x] => x
  | x :: y :: rest => x ++ sep ++ strJoinSep sep (y :: rest)

/-! ## Prompt-file parser (src/run.js, `parsePromptFile`, lines 54-94) -/

/-- `VALID_MODELS` from src/run.js lines 7-22. -/
def VALID_MODELS : List Str :=
  [str "anthropic/claude-3.5-sonnet",
   str "meta-llama/llama-3.1-405b-instruct",
   str "openai/gpt-4o",
   str "mistral/mixtral-8x22b-instruct",
   str "google/gemini-pro-1.5",
   str "meta-llama/llama-4-maverick",
   str "meta-llama/llama-3-70b-instruct",
   str "mistral/mistral-small-3.1",
   str "openrouter/optimus-alpha",
   str "cloudflare/gemma-7b",
   str "cloudflare/llama-3.3-70b",
   str "cloudflare/llama-3.1-70b",
   str "cloudflare/deepseek-r1-distill-qwen-32b",
   str "openrouter/auto"]

/-- `DEFAULT_MODEL` from src/run.js line 23. -/
def DEFAULT_MODEL : Str := str "anthropic/claude-3.5-sonnet"

/-- Message roles.  `parsePromptFile` produces `user`/`assistant`;
`system` occurs only in the request message list built by `runPrompt`. -/
inductive Role where
  | user
  | assistant
  | system
deriving DecidableEq

/-- One conversational turn (`{ role, content }` in the source). -/
structure ChatMessage where
  role : Role
  content : Str
deriving DecidableEq

/-- The `### User\n` header token of the conversation dialect. -/
def userHeader : Str := str "### User\n"

/-- The `### LLM\n` header token of the conversation dialect. -/
def llmHeader : Str := str "### LLM\n"

/-- Does a `### User\n` or `### LLM\n` turn header start at this
position?  Mirrors the alternation `### (User|LLM)\n` of the message
regex in `parsePromptFile`. -/
def headerAt (s : Str) : Option Role :=
  if strStarts s userHeader then some .user
  else if strStarts s llmHeader then some .assistant
  else none

/-- Number of characters from this position up to (excluding) the next
turn-header occurrence — the extent of the lazy group `([\s\S]*?)` bounded
by the lookahead `(?=### (User|LLM)\n|$)`. -/
def contentLen : Str → Nat
  | [] => 0
  | s@(_ :: rest) => if (headerAt s).isSome then 0 else contentLen rest + 1

/-- Length of the header recognised for role `r`. -/
def headerLen (r : Role) : Nat := if r = .user then 9 else 8

/-- Fuelled scan implementing the global message regex
`(### (User|LLM)\n([\s\S]*?))(?=### (User|LLM)\n|$)/g` of
`parsePromptFile`: repeatedly find the next turn header, take the raw
(untrimmed) turn body up to the following header or end of input. -/
def parseTurnsF : Nat → Str → List (Role × Str)
  | 0, _ => []
  | _, [] => []
  | fuel + 1, s@(c :: rest) =>
    match headerAt s with
    | some r =>
      let after := s.drop (headerLen r)
      let n := contentLen after
      (r, after.take n) :: parseTurnsF fuel (after.drop n)
    | none => parseTurnsF fuel (c :: rest).tail

/-- All raw turns of a conversation body, in order. -/
def parseTurns (s : Str) : List (Role × Str) := parseTurnsF s.length s

/-- The message-accumulation loop of `parsePromptFile` (lines 85-91):
each turn's body is trimmed and pushed only when non-empty (JS string
truthiness). -/
def parseMessages (conversationText : Str) : List ChatMessage :=
  (parseTurns conversationText).filterMap fun p =>
    let content := jsTrim p.2
    if content.isEmpty then none else some ⟨p.1, content⟩

/-- Extent of a metadata section: characters up to the first position
where `\n###` or `\n---` starts, or end of input — the lookahead
`(?=\n###|\n---|$)` of the `### Model` / `### Context` regexes. -/
def sectionEnd : Str → Nat
  | [] => 0
  | s@(_ :: rest) =>
    if strStarts s (str "\n###") || strStarts s (str "\n---") then 0
    else sectionEnd rest + 1

/-- Extract a metadata section: text following the first occurrence of
`header`, up to the lookahead boundary. -/
def extractSection (header : Str) (content : Str) : Option Str :=
  match splitFirst header content with
  | none => none
  | some (_, after) => some (after.take (sectionEnd after))

/-- Model extraction of `parsePromptFile` (lines 57-63): trim the
`### Model` section body; an unknown id falls back (with a warning) to
`DEFAULT_MODEL`, as does an absent section. -/
def extractModel (content : Str) : Str :=
  match extractSection (str "### Model\n") content with
  | none => DEFAULT_MODEL
  | some raw =>
    let m := jsTrim raw
    if VALID_MODELS.any (fun v => v == m) then m else DEFAULT_MODEL

/-- `line.trim().replace(/^- /, '')` of the context extraction. -/
def stripDash (l : Str) : Str :=
  if strStarts l (str "- ") then l.drop 2 else l

/-- Context extraction of `parsePromptFile` (lines 66-72): each line of
the `### Context` section, trimmed, with a leading `- ` stripped, kept
when non-empty. -/
def extractContext (content : Str) : List Str :=
  match extractSection (str "### Context\n") content with
  | none => []
  | some raw =>
    ((splitLines raw).map (fun l => stripDash (jsTrim l))).filter
      (fun l => !l.isEmpty)

/-- The structured result of `parsePromptFile`. -/
structure ParsedPromptFile where
  model : Str
  contextFiles : List Str
  messages : List ChatMessage
deriving DecidableEq

/-- Error message thrown when the `---` conversation boundary is absent. -/
def noConversationError : Str :=
  str "No conversation section found after --- in the prompt file."

/-- `parsePromptFile` (src/run.js lines 54-94): extract the model id, the
context file list, and the conversation messages after the first `---\n`
boundary; a missing boundary is a fatal parse error. -/
def parsePromptFile (content : Str) : Except Str ParsedPromptFile :=
  match splitFirst (str "---\n") content with
  | none => .error noConversationError
  | some (_, conversationText) =>
    .ok ⟨extractModel content, extractContext content,
         parseMessages conversationText⟩

/-! ## Context assembler
(`getFileContents`, src/run.js lines 96-130, together with the
specific-paths branch of `getAllCodeFiles` from the full `utils.js`
iteration, src/unnamed/part_001 lines 198-220.)

The file system is modelled as a record of the two effects the assembler
performs per path: `fs.stat` (which *throws* on a nonexistent path) and
`fs.readFile` (whose failure is caught).  `path.resolve`/`path.relative`
are treated as the identity on already-resolved path strings, since no
claim concerns path resolution.  The recursive directory walk of the
non-specific branch is the external file-discovery collaborator of the
spec (§6) and is modelled by the list of file paths it would return. -/

/-- `VALID_EXTENSIONS` from utils.js. -/
def VALID_EXTENSIONS : List Str :=
  [str ".js", str ".ts", str ".jsx", str ".tsx",
   str ".json", str ".py", str ".java", str ".cpp",
   str ".c", str ".cs", str ".rb", str ".php", str ".go", str ".md", str ".txt"]

/-- Outcome of `fs.stat` on a path: the call throws (nonexistent path),
or reports a regular file, or reports a directory.  For a directory the
recursive walk `getAllCodeFiles(resolvedPath, null, excludePaths)` is the
spec's external file-discovery collaborator; `walked` is the file list it
returns. -/
inductive StatRes where
  | enoent
  | fileE
  | dirE (walked : List Str)

/-- The file-system effects visible to the context assembler.
`readF p = none` models `fs.readFile` rejecting (e.g. a permission
error) on a path whose `stat` succeeded. -/
structure FileSys where
  stat : Str → StatRes
  readF : Str → Option Str

/-- JS `path.basename`: the component after the last `/`. -/
def basename (p : Str) : Str :=
  match (p.splitOn '/').getLast? with
  | some s => s
  | none => p

/-- The file filter of `getAllCodeFiles`'s specific-paths branch
(part_001 lines 212-215): a valid extension or `package.json`, and not a
`_PROMPT` file. -/
def keepFile (p : Str) : Bool :=
  (VALID_EXTENSIONS.any (fun e => strEndsWith p e) || basename p == str "package.json")
    && !(strStarts (basename p) (str "_PROMPT"))

/-- The `for (const sp of specificPaths)` loop of `getAllCodeFiles`'s
specific-paths branch (part_001 lines 203-218), with `acc` the `files`
accumulator.  `fs.stat` is *not* wrapped in try/catch in the source, so
a path whose stat fails propagates as an error out of the whole call;
the error value records the offending path. -/
def getAllCodeFilesGo (fs : FileSys) (excludePaths : List Str) (acc : List Str) :
    List Str → Except Str (List Str)
  | [] => .ok acc
  | sp :: rest =>
    if excludePaths.contains sp then getAllCodeFilesGo fs excludePaths acc rest
    else
      match fs.stat sp with
      | .enoent => .error sp
      | .dirE walked => getAllCodeFilesGo fs excludePaths (acc ++ walked) rest
      | .fileE =>
        if keepFile sp then getAllCodeFilesGo fs excludePaths (acc ++ [sp]) rest
        else getAllCodeFilesGo fs excludePaths acc rest

/-- The specific-paths branch of `getAllCodeFiles` (part_001 lines
202-219). -/
def getAllCodeFiles (fs : FileSys) (specificPaths : List Str)
    (excludePaths : List Str) : Except Str (List Str) :=
  getAllCodeFilesGo fs excludePaths [] specificPaths

/-- The delimiter line placed before each file's content:
`/* ~~~ ${relativePath} ~~~ */\n${content}`. -/
def delimited (p content : Str) : Str :=
  str "/* ~~~ " ++ p ++ str " ~~~ */\n" ++ content

/-- The warning logged when reading one context file fails (the trailing
`${error.message}` of the source's template literal is abstracted away). -/
def readWarn (p : Str) : Str := str "Failed to read file " ++ p

/-- The warning logged when no valid code files survive discovery. -/
def noFilesWarn : Str := str "No valid code files found for the provided context."

/-- The assembled context together with the warnings logged while
assembling it. -/
structure AssembleOut where
  output : Str
  warnings : List Str
deriving DecidableEq

/-- `getFileContents` (src/run.js lines 96-130): resolve the context
paths via `getAllCodeFiles`, read each surviving file, warn about and
drop reads that fail, and join the delimited contents with blank lines.
An error escaping `getAllCodeFiles` (a failed `stat`) aborts the whole
assembly. -/
def getFileContents (fs : FileSys) (contextFiles : List Str) :
    Except Str AssembleOut :=
  if contextFiles.isEmpty then .ok ⟨[], []⟩
  else
    match getAllCodeFiles fs contextFiles [] with
    | .error e => .error e
    | .ok files =>
      if files.isEmpty then .ok ⟨[], [noFilesWarn]⟩
      else
        let reads := files.map fun f => (f, fs.readF f)
        let warnings := (reads.filter fun p => p.2.isNone).map fun p => readWarn p.1
        let oks := reads.filterMap fun p => p.2.map fun c => (p.1, c)
        .ok ⟨strJoinSep (str "\n\n") (oks.map fun p => delimited p.1 p.2), warnings⟩

/-! ## Conversation-file initialization and append protocol
(src/run.js lines 132-147.) -/

/-- The assistant-section marker appended by `initializePromptFile`. -/
def llmMarkerAppend : Str := str "\n\n### LLM\n"

/-- The new-turn placeholder appended by `appendToPromptFile` when
`isFinal` is set. -/
def userMarkerAppend : Str :=
  str "\n\n### User\n<!-- Enter your next prompt here, then execute `gb9k run` -->"

/-- `initializePromptFile` (src/run.js lines 132-138): append a fresh
`### LLM` section marker unless the file already `includes('### LLM')`
anywhere. -/
def initializePromptFile (content : Str) : Str :=
  if jsIncludes content (str "### LLM") then content
  else content ++ llmMarkerAppend

/-- `appendToPromptFile` (src/run.js lines 140-147) as a pure function on
the file contents: append `content`, and additionally the new-user-turn
placeholder when `isFinal`. -/
def appendToPromptFile (file content : Str) (isFinal : Bool) : Str :=
  let f := file ++ content
  if isFinal then f ++ userMarkerAppend else f

/-- The role of the last turn header occurring in a conversation file —
the section any further raw append would land in. -/
def lastTurnRole (s : Str) : Option Role :=
  ((parseTurns s).getLast?).map fun p => p.1

/-! ## Streaming conversation engine
(`runPrompt`, src/run.js lines 198-325.)

The server-sent-event loop is modelled as a pure function from the list
of received network chunks to the trace of side effects it performs
(`Event`) plus the transient `StreamState` of run.js lines 270-272.
`JSON.parse` followed by the `choices[0]?.delta?.content` and `usage`
accesses is modelled by an oracle `Str → ParseOutcome`. -/

/-- Outcome of `JSON.parse` + field extraction on one `data:` payload:
the parse throws (`malformed`), or yields an optional content delta and
an optional usage object whose two counter fields are each optional
(run.js lines 284-294). -/
inductive ParseOutcome where
  | malformed
  | parsed (content : Option Str) (usage : Option (Option Nat × Option Nat))

/-- One observable side effect of the streaming loop, in order:
a plain `fs.appendFile` of streamed content, the finalizing
`fs.appendFile` of the new-user-turn placeholder, a
`process.stdout.write`, or a `console.error` for a malformed fragment. -/
inductive Event where
  | fileAppend (s : Str)
  | finalize
  | stdoutWrite (s : Str)
  | logError
deriving DecidableEq

/-- The transient `StreamState` of one exchange (run.js lines 270-272):
accumulated response text and the last-seen usage counters. -/
structure StState where
  responseText : Str
  promptTokens : Nat
  completionTokens : Nat
deriving DecidableEq

/-- Initial `StreamState`. -/
def initStState : StState := ⟨[], 0, 0⟩

/-- The `data: ` line marker. -/
def dataColon : Str := str "data: "

/-- The sentinel termination payload `[DONE]`. -/
def doneStr : Str := str "[DONE]"

/-- The inner line loop of `runPrompt` (run.js lines 276-299) over the
trim-nonempty lines of one chunk: a non-`data:` line is skipped; the
`[DONE]` sentinel triggers `appendToPromptFile(promptFile, '', true)` and
`break`s out of the line loop; a malformed payload logs and continues; a
payload with a truthy content delta is appended to the file and
accumulated; a `usage` object overwrites the token counters (each field
defaulted to `0` by `|| 0`). -/
def processLines (parse : Str → ParseOutcome) :
    List Str → StState → List Event × StState
  | [], st => ([], st)
  | line :: rest, st =>
    if strStarts line dataColon then
      let data := line.drop 6
      if data = doneStr then
        ([.fileAppend [], .finalize], st)
      else
        match parse data with
        | .malformed =>
          let r := processLines parse rest st
          (.logError :: r.1, r.2)
        | .parsed content usage =>
          let cr : List Event × StState :=
            match content with
            | some c =>
              if c.isEmpty then ([], st)
              else ([.fileAppend c], { st with responseText := st.responseText ++ c })
            | none => ([], st)
          let st2 : StState :=
            match usage with
            | some u => { cr.2 with promptTokens := u.1.getD 0,
                                    completionTokens := u.2.getD 0 }
            | none => cr.2
          let r := processLines parse rest st2
          (cr.1 ++ r.1, r.2)
    else processLines parse rest st

/-- `chunk.toString('utf8').split('\n').filter(line => line.trim())`
(run.js line 275): the raw (untrimmed) lines of a chunk whose trim is
non-empty. -/
def chunkLines (c : Str) : List Str :=
  (splitLines c).filter fun l => !(jsTrim l).isEmpty

/-- The outer `for await (const chunk of response.body)` loop: chunks are
processed one after the other; the inner `break` on `[DONE]` only ends
the current chunk's line loop. -/
def processStream (parse : Str → ParseOutcome) :
    List Str → StState → List Event × StState
  | [], st => ([], st)
  | c :: cs, st =>
    let r1 := processLines parse (chunkLines c) st
    let r2 := processStream parse cs r1.2
    (r1.1 ++ r2.1, r2.2)

/-- How the transport ends after the listed chunks: the stream completes
normally, or iteration throws (connection error mid-stream). -/
inductive StreamEnd where
  | ok
  | transportError

/-! ## Usage/cost reconciler
(`calculatePrice`, src/run.js lines 26-42, and the estimation and
reporting code of `runPrompt`, lines 302-319.) -/

/-- `Math.ceil(x / 4)` for a natural character count.  The JS source sums
`msg.content.length / 4` in floating point; each summand is dyadic and
the sums involved are far below 2^53, so the float computation equals the
exact value `⌈total / 4⌉ = (total + 3) / 4`. -/
def ceilDiv4 (n : Nat) : Nat := (n + 3) / 4

/-- The prompt-token estimate of run.js lines 303-305:
`Math.ceil(apiMessages.reduce((acc, msg) => acc + msg.content.length / 4, 0))`. -/
def estPromptTokens (apiMessages : List ChatMessage) : Nat :=
  ceilDiv4 (apiMessages.foldl (fun acc m => acc + m.content.length) 0)

/-- The completion-token estimate of run.js lines 306-308:
`Math.ceil(responseText.length / 4)`. -/
def estCompletionTokens (responseText : Str) : Nat :=
  ceilDiv4 responseText.length

/-- A model's `pricing` object: per-token prices, each field possibly
absent. -/
structure PricingInfo where
  prompt : Option ℚ
  completion : Option ℚ
deriving DecidableEq

/-- One entry of the fetched models list: an id and an optional
`pricing` object. -/
structure ModelInfo where
  id : Str
  pricing : Option PricingInfo
deriving DecidableEq

/-- The record returned by `calculatePrice` (run.js lines 34-41). -/
structure PriceResult where
  promptCost : ℚ
  completionCost : ℚ
  totalCost : ℚ
  promptTokens : Nat
  completionTokens : Nat
  pricing : PricingInfo
deriving DecidableEq

/-- `calculatePrice` (src/run.js lines 26-42): look up the model id in
the models list; without a matching entry, or with an entry lacking a
`pricing` object, return `null`; otherwise each absent price field is
defaulted to `0` (`|| 0`) and the per-category and total costs are
computed. -/
def calculatePrice (promptTokens completionTokens : Nat) (model : Str)
    (models : List ModelInfo) : Option PriceResult :=
  match models.find? (fun m => m.id == model) with
  | none => none
  | some modelInfo =>
    match modelInfo.pricing with
    | none => none
    | some pricing =>
      let promptCost : ℚ := pricing.prompt.getD 0 * promptTokens
      let completionCost : ℚ := pricing.completion.getD 0 * completionTokens
      some ⟨promptCost, completionCost, promptCost + completionCost,
            promptTokens, completionTokens, pricing⟩

/-- Replay the event trace against a file's contents: content appends
and the finalizing placeholder append mutate the file; stdout writes and
error logs do not. -/
def fileAfter (f0 : Str) : List Event → Str
  | [] => f0
  | .fileAppend s :: es => fileAfter (f0 ++ s) es
  | .finalize :: es => fileAfter (f0 ++ userMarkerAppend) es
  | .stdoutWrite _ :: es => fileAfter f0 es
  | .logError :: es => fileAfter f0 es

/-- The observable outcome of one exchange. -/
structure ExchangeOut where
  events : List Event
  file : Str
  promptTokens : Nat
  completionTokens : Nat
  priceReport : Option PriceResult
  errored : Bool
deriving DecidableEq

/-- The exchange portion of `runPrompt` (src/run.js lines 226-324),
starting after the prompt file has been parsed: `initializePromptFile`
runs before the request; a non-OK HTTP status throws before any chunk is
processed (`ok = false`); otherwise the chunks are streamed; a transport
error mid-stream jumps to the catch block (exit, no finalization, no
price report); on normal completion zero token counters are replaced by
the character-count estimates and `calculatePrice` produces the price
report (printed only when non-null). -/
def runPromptExchange (parse : Str → ParseOutcome) (models : List ModelInfo)
    (model : Str) (apiMessages : List ChatMessage) (f0 : Str) (ok : Bool)
    (chunks : List Str) (endK : StreamEnd) : ExchangeOut :=
  let f1 := initializePromptFile f0
  if ok = false then ⟨[], f1, 0, 0, none, true⟩
  else
    let r := processStream parse chunks initStState
    match endK with
    | .transportError => ⟨r.1, fileAfter f1 r.1, r.2.promptTokens, r.2.completionTokens, none, true⟩
    | .ok =>
      let promptTokens :=
        if r.2.promptTokens = 0 then estPromptTokens apiMessages else r.2.promptTokens
      let completionTokens :=
        if r.2.completionTokens = 0 then estCompletionTokens r.2.responseText
        else r.2.completionTokens
      ⟨r.1, fileAfter f1 r.1, promptTokens, completionTokens,
       calculatePrice promptTokens completionTokens model models, false⟩

/-! ## Event-trace projections and the spec-side token trace -/

/-- The strings written to standard output, in order. -/
def stdoutTrace : List Event → List Str
  | [] => []
  | .stdoutWrite s :: es => s :: stdoutTrace es
  | _ :: es => stdoutTrace es

/-- The strings appended to the conversation file by plain content
appends, in order. -/
def fileAppendTrace : List Event → List Str
  | [] => []
  | .fileAppend s :: es => s :: fileAppendTrace es
  | _ :: es => fileAppendTrace es

/-- How many times the finalizing new-user-turn append ran. -/
def countFinalize : List Event → Nat
  | [] => 0
  | .finalize :: es => countFinalize es + 1
  | _ :: es => countFinalize es

/-- How many malformed-fragment errors were logged. -/
def countLogError : List Event → Nat
  | [] => 0
  | .logError :: es => countLogError es + 1
  | _ :: es => countLogError es

/-- Spec-side definition (from the spec's words, §4.3): the sequence of
"extracted incremental content token"s of one chunk's lines, in arrival
order — for each `data:` line before the sentinel, the truthy content
delta the oracle extracts from its payload. -/
def specContentTokens (parse : Str → ParseOutcome) : List Str → List Str
  | [] => []
  | line :: rest =>
    if strStarts line dataColon then
      let data := line.drop 6
      if data = doneStr then []
      else
        match parse data with
        | .malformed => specContentTokens parse rest
        | .parsed (some c) _ =>
          if c.isEmpty then specContentTokens parse rest
          else c :: specContentTokens parse rest
        | .parsed none _ => specContentTokens parse rest
    else specContentTokens parse rest

/-- Spec-side definition: the content tokens of a whole stream of
chunks, in arrival order. -/
def streamTokens (parse : Str → ParseOutcome) : List Str → List Str
  | [] => []
  | c :: cs => specContentTokens parse (chunkLines c) ++ streamTokens parse cs

/-- Is this raw line the sentinel `data: [DONE]` line? -/
def isDoneLine (l : Str) : Bool :=
  strStarts l dataColon && decide (l.drop 6 = doneStr)

/-- Does this chunk contain a sentinel line among its processed lines? -/
def chunkHasDone (c : Str) : Bool := (chunkLines c).any isDoneLine

/-! ## Concrete fixtures used by counterexamples and witnesses -/

/-- A conversation file whose single turn is exactly the placeholder
comment that `appendToPromptFile` writes for the next user turn. -/
def placeholderOnlyFile : Str :=
  str "---\n### User\n<!-- Enter your next prompt here, then execute `gb9k run` -->"

/-- The placeholder comment itself. -/
def placeholderComment : Str :=
  str "<!-- Enter your next prompt here, then execute `gb9k run` -->"

/-- A file system in which `a.js` is a readable file and `missing.js`
does not exist, so `fs.stat('missing.js')` throws. -/
def fsMissing : FileSys where
  stat := fun p => if p = str "a.js" then .fileE else .enoent
  readF := fun p => if p = str "a.js" then some (str "alpha") else none

/-- A file system in which `a.js` is a readable file and `missing.js`
exists (its `stat` succeeds) but its read fails. -/
def fsUnreadable : FileSys where
  stat := fun p =>
    if p = str "a.js" then .fileE
    else if p = str "missing.js" then .fileE
    else .enoent
  readF := fun p => if p = str "a.js" then some (str "alpha") else none

/-- A completed-exchange conversation file: the `### LLM` marker occurs
mid-file and the trailing open section is a `### User` turn. -/
def midLLMFile : Str :=
  str "---\n### User\nhi\n\n### LLM\nanswer\n\n### User\nnext"

/-- A conversation file that does not yet contain `### LLM`. -/
def freshFile : Str := str "---\n### User\nhi"

/-- Payload oracle for the `["Hel", "lo", <sentinel>]` stream simulation:
`fragHel` and `fragLo` are well-formed payloads carrying the content
deltas `"Hel"` and `"lo"`, with no usage object. -/
def parseHello : Str → ParseOutcome := fun d =>
  if d = str "fragHel" then .parsed (some (str "Hel")) none
  else if d = str "fragLo" then .parsed (some (str "lo")) none
  else .malformed

/-- The chunk list of the `["Hel", "lo", <sentinel>]` stream. -/
def chunksHello : List Str :=
  [str "data: fragHel\n", str "data: fragLo\n", str "data: [DONE]\n"]

/-- Payload oracle carrying a single content token `"Hi"`. -/
def parseHi : Str → ParseOutcome := fun d =>
  if d = str "fragHi" then .parsed (some (str "Hi")) none
  else .malformed

/-- Payload oracle in which `fragOne`/`fragTwo` are well-formed payloads
with content tokens `"one"`/`"two"` and every other payload (such as
`BAD`) is malformed JSON. -/
def parseInterleaved : Str → ParseOutcome := fun d =>
  if d = str "fragOne" then .parsed (some (str "one")) none
  else if d = str "fragTwo" then .parsed (some (str "two")) none
  else .malformed

/-- A stream with a malformed fragment between two valid fragments,
terminated by the sentinel. -/
def chunksInterleaved : List Str :=
  [str "data: fragOne\ndata: BAD\ndata: fragTwo\ndata: [DONE]\n"]

/-- Payload oracle whose single payload carries the content `"x"` and a
usage object reporting `prompt_tokens: 0, completion_tokens: 50`. -/
def parseZeroUsage : Str → ParseOutcome := fun d =>
  if d = str "fragU" then .parsed (some (str "x")) (some (some 0, some 50))
  else .malformed

/-- The chunk list of the zero-prompt-counter stream. -/
def chunksZeroUsage : List Str := [str "data: fragU\n", str "data: [DONE]\n"]

/-- A request message list with 10 characters of content in total, so
the chars/4 estimate is `⌈10/4⌉ = 3`. -/
def msgsTen : List ChatMessage := [⟨.system, str "0123456789"⟩]

/-- A models list quoting `test/model` at `0.000005` per prompt token
and `0.000015` per completion token. -/
def quotedModels : List ModelInfo :=
  [⟨str "test/model", some ⟨some (5 / 1000000), some (15 / 1000000)⟩⟩]

/-- A models list with an entry for `test/model` that lacks a `pricing`
object, and none for `other/model`. -/
def unquotedModels : List ModelInfo := [⟨str "test/model", none⟩]

/-- Payload oracle whose single payload carries the content `"y"` and a
usage object reporting `prompt_tokens: 100, completion_tokens: 50`. -/
def parseUsage100 : Str → ParseOutcome := fun d =>
  if d = str "fragV" then .parsed (some (str "y")) (some (some 100, some 50))
  else .malformed

/-- The chunk list of the nonzero-usage stream. -/
def chunksUsage100 : List Str := [str "data: fragV\n", str "data: [DONE]\n"]

/-- A models list whose entry for `np/model` has a `pricing` object with
the `prompt` field absent. -/
def partialQuoteModels : List ModelInfo :=
  [⟨str "np/model", some ⟨none, some (2 / 1000000)⟩⟩]

/-! ## Helper lemmas -/

theorem strContains_append_of_right (a b sub : Str)
    (h : strContains b sub = true) : strContains (a ++ b) sub = true := by
  induction a with
  | nil => simpa using h
  | cons x xs ih =>
    simp only [List.cons_append, strContains, Bool.or_eq_true]
    exact Or.inr ih

theorem stdoutTrace_append (a b : List Event) :
    stdoutTrace (a ++ b) = stdoutTrace a ++ stdoutTrace b := by
  induction a with
  | nil => rfl
  | cons e es ih => cases e <;> simp [stdoutTrace, ih]

theorem fileAppendTrace_append (a b : List Event) :
    fileAppendTrace (a ++ b) = fileAppendTrace a ++ fileAppendTrace b := by
  induction a with
  | nil => rfl
  | cons e es ih => cases e <;> simp [fileAppendTrace, ih]

theorem countFinalize_append (a b : List Event) :
    countFinalize (a ++ b) = countFinalize a + countFinalize b := by
  induction a with
  | nil => simp [countFinalize]
  | cons e es ih => cases e <;> (simp [countFinalize, ih]; try omega)

theorem countLogError_append (a b : List Event) :
    countLogError (a ++ b) = countLogError a + countLogError b := by
  induction a with
  | nil => simp [countLogError]
  | cons e es ih => cases e <;> (simp [countLogError, ih]; try omega)

theorem processLines_stdout (parse : Str → ParseOutcome) (lines : List Str)
    (st : StState) : stdoutTrace (processLines parse lines st).1 = [] := by
  induction lines generalizing st with
  | nil => rfl
  | cons l rest ih =>
    simp only [processLines]
    split
    · split
      · rfl
      · cases hp : parse (l.drop 6) with
        | malformed => simp [stdoutTrace, ih]
        | parsed content usage =>
          cases content with
          | none => simp [stdoutTrace_append, ih]
          | some c =>
            by_cases hc : c.isEmpty = true <;>
              simp [hc, stdoutTrace_append, stdoutTrace, ih]
    · exact ih st

theorem processLines_fileAppends (parse : Str → ParseOutcome) (lines : List Str)
    (st : StState) :
    (fileAppendTrace (processLines parse lines st).1).filter (fun s => !s.isEmpty)
      = specContentTokens parse lines := by
  induction lines generalizing st with
  | nil => rfl
  | cons l rest ih =>
    simp only [processLines, specContentTokens]
    split
    · split
      · rfl
      · cases hp : parse (l.drop 6) with
        | malformed => simp [fileAppendTrace, ih]
        | parsed content usage =>
          cases content with
          | none => simp [fileAppendTrace_append, ih]
          | some c =>
            by_cases hc : c.isEmpty = true <;>
              simp [hc, fileAppendTrace_append, fileAppendTrace, List.filter, ih]
    · exact ih st

theorem processLines_countFinalize (parse : Str → ParseOutcome) (lines : List Str)
    (st : StState) :
    countFinalize (processLines parse lines st).1
      = if lines.any isDoneLine then 1 else 0 := by
  induction lines generalizing st with
  | nil => rfl
  | cons l rest ih =>
    simp only [processLines, List.any_cons]
    by_cases hs : strStarts l dataColon = true
    · by_cases hd : l.drop 6 = doneStr
      · simp [hs, hd, isDoneLine, countFinalize]
      · have hl : isDoneLine l = false := by simp [isDoneLine, hs, hd]
        simp only [hs, if_true, hd, if_false, hl, Bool.false_or]
        cases hp : parse (l.drop 6) with
        | malformed => simp [countFinalize, ih]
        | parsed content usage =>
          cases content with
          | none => simp [countFinalize_append, ih]
          | some c =>
            by_cases hc : c.isEmpty = true <;>
              simp [hc, countFinalize_append, countFinalize, ih]
    · have hl : isDoneLine l = false := by simp [isDoneLine, hs]
      simp [hs, hl, ih]

theorem processStream_stdout (parse : Str → ParseOutcome) (chunks : List Str)
    (st : StState) : stdoutTrace (processStream parse chunks st).1 = [] := by
  induction chunks generalizing st with
  | nil => rfl
  | cons c cs ih =>
    simp [processStream, stdoutTrace_append, processLines_stdout, ih]

theorem processStream_fileAppends (parse : Str → ParseOutcome) (chunks : List Str)
    (st : StState) :
    (fileAppendTrace (processStream parse chunks st).1).filter (fun s => !s.isEmpty)
      = streamTokens parse chunks := by
  induction chunks generalizing st with
  | nil => rfl
  | cons c cs ih =>
    simp [processStream, streamTokens, fileAppendTrace_append, List.filter_append,
      processLines_fileAppends, ih]

theorem processStream_countFinalize (parse : Str → ParseOutcome) (chunks : List Str)
    (st : StState) :
    countFinalize (processStream parse chunks st).1
      = List.countP chunkHasDone chunks := by
  induction chunks generalizing st with
  | nil => rfl
  | cons c cs ih =>
    simp only [processStream, countFinalize_append, processLines_countFinalize,
      List.countP_cons, ih, chunkHasDone]
    by_cases h : (chunkLines c).any isDoneLine = true
    · simp only [h, if_true, if_pos]
      omega
    · simp [h]

theorem strStarts_dataColon (d : Str) :
    strStarts (dataColon ++ d) dataColon = true := by
  have h : dataColon = ['d', 'a', 't', 'a', ':', ' '] := rfl
  rw [h]
  simp [strStarts]

theorem dataColon_drop6 (d : Str) : (dataColon ++ d).drop 6 = d := rfl

theorem getAllCodeFilesGo_isOk (fs : FileSys) (excl : List Str) (ctx : List Str) :
    (∀ p ∈ ctx, fs.stat p ≠ StatRes.enoent) →
    ∀ acc, ∃ v, getAllCodeFilesGo fs excl acc ctx = Except.ok v := by
  induction ctx with
  | nil => exact fun _ acc => ⟨acc, rfl⟩
  | cons sp rest ih =>
    intro h acc
    have hrest : ∀ p ∈ rest, fs.stat p ≠ StatRes.enoent :=
      fun p hp => h p (List.mem_cons_of_mem sp hp)
    simp only [getAllCodeFilesGo]
    by_cases hex : excl.contains sp = true
    · rw [if_pos hex]
      exact ih hrest acc
    · rw [if_neg hex]
      cases hstat : fs.stat sp with
      | enoent => exact absurd hstat (h sp (List.mem_cons_self sp rest))
      | fileE =>
        by_cases hk : keepFile sp = true
        · rw [if_pos hk]
          exact ih hrest (acc ++ [sp])
        · rw [if_neg hk]
          exact ih hrest acc
      | dirE walked => exact ih hrest (acc ++ walked)

theorem getFileContents_isOk (fs : FileSys) (ctx : List Str)
    (h : ∀ p ∈ ctx, fs.stat p ≠ StatRes.enoent) :
    ∃ out, getFileContents fs ctx = Except.ok out := by
  obtain ⟨v, hv⟩ := getAllCodeFilesGo_isOk fs [] ctx h []
  unfold getFileContents getAllCodeFiles
  rw [hv]
  by_cases he : ctx.isEmpty = true
  · rw [if_pos he]
    exact ⟨_, rfl⟩
  · rw [if_neg he]
    by_cases hve : v.isEmpty = true
    · exact ⟨_, if_pos hve⟩
    · exact ⟨_, if_neg hve⟩

/-! ## Claim theorems -/

/-- C1 (counterexample): a conversation file whose only `### User` turn
consists solely of the HTML comment placeholder does *not* parse to zero
messages — `parsePromptFile` keeps the turn, so the claim that such a
turn is excluded from the message list is false on the code. -/
theorem parsePromptFile_placeholder_cx :
    (parsePromptFile placeholderOnlyFile).toOption.map (fun r => r.messages.length)
        = some 1
    ∧ (parsePromptFile placeholderOnlyFile).toOption.map (fun r => r.messages.length)
        ≠ some 0 := by
  constructor
  · decide
  · decide

/-- C1 (amended): `parsePromptFile` keeps a `### User` turn whose body is
only the HTML comment placeholder — `trim` does not strip HTML comments,
so the turn's content is non-empty and is pushed; the placeholder-only
file parses to exactly one user message whose content is the comment
text (only turns whose body trims to the empty string are dropped). -/
theorem parsePromptFile_placeholder_kept :
    parsePromptFile placeholderOnlyFile
      = .ok ⟨DEFAULT_MODEL, [], [⟨.user, placeholderComment⟩]⟩ := by
  rfl

/-- C2 (counterexample): with context paths `[a.js, missing.js]` where
`missing.js` does not exist, `fs.stat` throws inside `getAllCodeFiles`
(which does not catch it), so context assembly aborts with an error
instead of returning `a.js`'s content with a warning — the claim that
assembly never aborts on a single bad file is false on the code. -/
theorem getFileContents_missing_aborts_cx :
    getFileContents fsMissing [str "a.js", str "missing.js"]
        = Except.error (str "missing.js")
    ∧ (getFileContents fsMissing [str "a.js", str "missing.js"]).toOption = none := by
  exact ⟨rfl, rfl⟩

/-- C2 (amended): context assembly never aborts because of a *read*
failure — whenever every context reference's `stat` succeeds, assembly
returns `ok`, and a file that exists but fails to read is warned about
and excluded while the readable files' delimited contents are returned;
only a reference whose `stat` itself fails (a nonexistent path) escapes
as an error. -/
theorem getFileContents_read_failure_nonfatal :
    (∀ (fs : FileSys) (ctx : List Str),
        (∀ p ∈ ctx, fs.stat p ≠ StatRes.enoent) →
        ∃ out, getFileContents fs ctx = Except.ok out)
    ∧ (∀ (fs : FileSys) (a m ca : Str),
        fs.stat a = StatRes.fileE → fs.readF a = some ca →
        fs.stat m = StatRes.fileE → fs.readF m = none →
        keepFile a = true → keepFile m = true →
        getFileContents fs [a, m] = Except.ok ⟨delimited a ca, [readWarn m]⟩) := by
  constructor
  · exact fun fs ctx h => getFileContents_isOk fs ctx h
  · intro fs a m ca h1 h2 h3 h4 hka hkm
    simp [getFileContents, getAllCodeFiles, getAllCodeFilesGo, h1, h2, h3, h4,
      hka, hkm, strJoinSep, List.filter, List.filterMap]

/-- C2 (witness): the amended theorem at a concrete file system in which
`a.js` is readable and `missing.js` exists but cannot be read. -/
theorem getFileContents_read_failure_nonfatal_witness :
    getFileContents fsUnreadable [str "a.js", str "missing.js"]
      = Except.ok ⟨delimited (str "a.js") (str "alpha"), [readWarn (str "missing.js")]⟩ :=
  getFileContents_read_failure_nonfatal.2 fsUnreadable (str "a.js") (str "missing.js")
    (str "alpha") rfl rfl rfl rfl rfl rfl

/-- C3 (counterexample): on a file whose `### LLM` marker sits mid-file
(a completed prior exchange) with a trailing `### User` turn,
`initializePromptFile` appends nothing — `includes('### LLM')` checks
anywhere, not trailing — so the file is left *without* a trailing
assistant-section marker and streamed content would land in the user
section; the claim that the engine ensures a trailing marker is false. -/
theorem initializePromptFile_mid_marker_cx :
    initializePromptFile midLLMFile = midLLMFile
    ∧ lastTurnRole (initializePromptFile midLLMFile) = some Role.user
    ∧ lastTurnRole (initializePromptFile midLLMFile) ≠ some Role.assistant := by
  refine ⟨by decide, by decide, by decide⟩

/-- C3 (amended): `initializePromptFile` is idempotent and appends the
`\n\n### LLM\n` marker exactly when `### LLM` occurs nowhere in the
file; when the marker already occurs anywhere (not necessarily as the
trailing open section) the file is left unchanged, so a trailing
assistant section is guaranteed only for files with no `### LLM` at all. -/
theorem initializePromptFile_marker_behavior (c : Str) :
    initializePromptFile (initializePromptFile c) = initializePromptFile c
    ∧ (jsIncludes c (str "### LLM") = true → initializePromptFile c = c)
    ∧ (jsIncludes c (str "### LLM") = false →
        initializePromptFile c = c ++ llmMarkerAppend) := by
  by_cases h : jsIncludes c (str "### LLM") = true
  · exact ⟨by simp [initializePromptFile, h],
      fun _ => by simp [initializePromptFile, h],
      fun hf => absurd h (by simp [hf])⟩
  · have hb : jsIncludes c (str "### LLM") = false := by
      cases hx : jsIncludes c (str "### LLM")
      · rfl
      · exact absurd hx h
    have happ : jsIncludes (c ++ llmMarkerAppend) (str "### LLM") = true := by
      unfold jsIncludes
      apply strContains_append_of_right
      decide
    refine ⟨?_, fun ht => absurd ht h, fun _ => by simp [initializePromptFile, hb]⟩
    simp [initializePromptFile, hb, happ]

/-- C3 (witness): the amended theorem at a concrete fresh conversation
file containing no `### LLM` marker. -/
theorem initializePromptFile_marker_behavior_witness :
    initializePromptFile freshFile = freshFile ++ llmMarkerAppend :=
  (initializePromptFile_marker_behavior freshFile).2.2 (by decide)

/-- C4 (counterexample): a stream delivering the single content token
`"Hi"` produces an empty stdout trace — the current `runPrompt` in
src/run.js appends each token to the conversation file but never writes
it to standard output (the `process.stdout.write(content)` of the
superseded draft was dropped), so the claim that the stdout trace equals
the token sequence is false on the code. -/
theorem stream_stdout_empty_cx :
    (runPromptExchange parseHi [] DEFAULT_MODEL [] freshFile true
        [str "data: fragHi\n"] .ok).events = [Event.fileAppend (str "Hi")]
    ∧ stdoutTrace (runPromptExchange parseHi [] DEFAULT_MODEL [] freshFile true
        [str "data: fragHi\n"] .ok).events = []
    ∧ streamTokens parseHi [str "data: fragHi\n"] = [str "Hi"]
    ∧ stdoutTrace (runPromptExchange parseHi [] DEFAULT_MODEL [] freshFile true
        [str "data: fragHi\n"] .ok).events ≠ streamTokens parseHi [str "data: fragHi\n"] := by
  refine ⟨rfl, rfl, rfl, by decide⟩

/-- C4 (amended): the streaming loop of the current src/run.js writes
nothing to standard output — its stdout trace is always empty — while
the sequence of non-empty file appends it performs equals exactly the
sequence of extracted incremental content tokens in arrival order (the
tokens reach the conversation file, not stdout). -/
theorem stream_tokens_file_not_stdout (parse : Str → ParseOutcome)
    (chunks : List Str) (st : StState) :
    stdoutTrace (processStream parse chunks st).1 = []
    ∧ (fileAppendTrace (processStream parse chunks st).1).filter (fun s => !s.isEmpty)
        = streamTokens parse chunks :=
  ⟨processStream_stdout parse chunks st, processStream_fileAppends parse chunks st⟩

/-- C5: the finalizing new-user-turn append runs exactly once per
exchange and only upon the sentinel: with a non-OK HTTP status the run
aborts before any stream event (file left as initialized, no
finalization); on a transport error over a stream that never delivered
the sentinel no finalization happens and the run errors; and over a
stream containing exactly one sentinel-bearing chunk the finalization
runs exactly once. -/
theorem runPrompt_finalize_exactly_once (parse : Str → ParseOutcome)
    (models : List ModelInfo) (model : Str) (apiMessages : List ChatMessage)
    (f0 : Str) (chunks : List Str) (endK : StreamEnd) :
    ((runPromptExchange parse models model apiMessages f0 false chunks endK).events = []
      ∧ (runPromptExchange parse models model apiMessages f0 false chunks endK).file
          = initializePromptFile f0
      ∧ (runPromptExchange parse models model apiMessages f0 false chunks endK).errored = true)
    ∧ (List.countP chunkHasDone chunks = 0 →
        countFinalize (runPromptExchange parse models model apiMessages f0 true chunks
            .transportError).events = 0
        ∧ (runPromptExchange parse models model apiMessages f0 true chunks
            .transportError).errored = true)
    ∧ (List.countP chunkHasDone chunks = 1 →
        countFinalize (runPromptExchange parse models model apiMessages f0 true chunks
            endK).events = 1) := by
  refine ⟨⟨rfl, rfl, rfl⟩, fun h0 => ⟨?_, rfl⟩, fun h1 => ?_⟩
  · show countFinalize (processStream parse chunks initStState).1 = 0
    rw [processStream_countFinalize, h0]
  · cases endK with
    | ok =>
      show countFinalize (processStream parse chunks initStState).1 = 1
      rw [processStream_countFinalize, h1]
    | transportError =>
      show countFinalize (processStream parse chunks initStState).1 = 1
      rw [processStream_countFinalize, h1]

/-- C5 (witness): the finalize-once theorem at the concrete
`["Hel", "lo", <sentinel>]` stream, whose single chunk bearing the
sentinel yields exactly one finalization. -/
theorem runPrompt_finalize_exactly_once_witness :
    countFinalize (runPromptExchange parseHello [] DEFAULT_MODEL [] freshFile true
        chunksHello .ok).events = 1 :=
  (runPrompt_finalize_exactly_once parseHello [] DEFAULT_MODEL [] freshFile
    chunksHello .ok).2.2 (by decide)

/-- C6: simulating the fragment stream `["Hel", "lo", <sentinel>]`
against an initially valid conversation file appends exactly `"Hel"`
then `"lo"` (i.e. `"Hello"`) to the assistant section in arrival order,
and appends exactly one trailing new-user-turn placeholder, strictly
after the sentinel and never before it: the event trace is precisely
append `"Hel"`, append `"lo"`, the sentinel's empty append, then the
single finalization, and the resulting file is the initial file with
`### LLM\nHello` and one trailing placeholder turn. -/
theorem stream_hello_exchange :
    (runPromptExchange parseHello [] DEFAULT_MODEL [] freshFile true chunksHello .ok).events
        = [Event.fileAppend (str "Hel"), Event.fileAppend (str "lo"),
           Event.fileAppend [], Event.finalize]
    ∧ (runPromptExchange parseHello [] DEFAULT_MODEL [] freshFile true chunksHello .ok).file
        = str "---\n### User\nhi\n\n### LLM\nHello\n\n### User\n<!-- Enter your next prompt here, then execute `gb9k run` -->"
    ∧ countFinalize (runPromptExchange parseHello [] DEFAULT_MODEL [] freshFile true
        chunksHello .ok).events = 1
    ∧ (runPromptExchange parseHello [] DEFAULT_MODEL [] freshFile true chunksHello .ok).errored
        = false := by
  exact ⟨rfl, rfl, rfl, rfl⟩

/-- C7 (counterexample): over a stream with a malformed fragment between
two valid fragments, processing continues and both tokens reach the
conversation file in order, but the stdout trace is empty — the valid
fragments' content tokens do *not* appear in the standard output, so the
claim that both tokens appear in the output is false on the current
code (the stdout echo of the superseded draft was dropped). -/
theorem malformed_fragment_stdout_cx :
    (runPromptExchange parseInterleaved [] DEFAULT_MODEL [] freshFile true
        chunksInterleaved .ok).events
      = [Event.fileAppend (str "one"), Event.logError, Event.fileAppend (str "two"),
         Event.fileAppend [], Event.finalize]
    ∧ (runPromptExchange parseInterleaved [] DEFAULT_MODEL [] freshFile true
        chunksInterleaved .ok).errored = false
    ∧ stdoutTrace (runPromptExchange parseInterleaved [] DEFAULT_MODEL [] freshFile true
        chunksInterleaved .ok).events = []
    ∧ stdoutTrace (runPromptExchange parseInterleaved [] DEFAULT_MODEL [] freshFile true
        chunksInterleaved .ok).events ≠ [str "one", str "two"] := by
  refine ⟨rfl, rfl, rfl, by decide⟩

/-- C7 (amended): a malformed JSON fragment interleaved between two
well-formed fragments does not abort processing — it is logged and
skipped, and both valid fragments' content tokens are appended to the
conversation file (and accumulated into the response text) in their
original order; the tokens are not echoed to stdout in the current code. -/
theorem malformed_fragment_nonfatal (parse : Str → ParseOutcome)
    (d1 d2 d3 c1 c3 : Str) (st : StState)
    (h1 : parse d1 = .parsed (some c1) none) (h2 : parse d2 = .malformed)
    (h3 : parse d3 = .parsed (some c3) none)
    (hc1 : c1.isEmpty = false) (hc3 : c3.isEmpty = false)
    (hd1 : d1 ≠ doneStr) (hd2 : d2 ≠ doneStr) (hd3 : d3 ≠ doneStr) :
    processLines parse [dataColon ++ d1, dataColon ++ d2, dataColon ++ d3] st
      = ([Event.fileAppend c1, Event.logError, Event.fileAppend c3],
         { st with responseText := st.responseText ++ c1 ++ c3 }) := by
  simp [processLines, strStarts_dataColon, dataColon_drop6, h1, h2, h3, hc1, hc3,
    hd1, hd2, hd3]

/-- C7 (witness): the malformed-fragment theorem at the concrete
interleaved stream with tokens `"one"` and `"two"` and the malformed
payload `BAD`. -/
theorem malformed_fragment_nonfatal_witness :
    processLines parseInterleaved
        [dataColon ++ str "fragOne", dataColon ++ str "BAD", dataColon ++ str "fragTwo"]
        initStState
      = ([Event.fileAppend (str "one"), Event.logError, Event.fileAppend (str "two")],
         { initStState with
             responseText := initStState.responseText ++ str "one" ++ str "two" }) :=
  malformed_fragment_nonfatal parseInterleaved (str "fragOne") (str "BAD")
    (str "fragTwo") (str "one") (str "two") initStState rfl rfl rfl rfl rfl
    (by decide) (by decide) (by decide)

/-- C8 (counterexample): the stream supplies usage counters
`{prompt: 0, completion: 50}` but the reported prompt-token count is the
chars/4 estimate `3`, not the supplied `0` — `promptTokens || 0` stores
the counter and the falsy check `if (!promptTokens)` then replaces a
supplied zero by the estimate, so supplied counters are *not* always
used verbatim and the claim is false on the code. -/
theorem zero_usage_counter_cx :
    (processStream parseZeroUsage chunksZeroUsage initStState).2.promptTokens = 0
    ∧ (processStream parseZeroUsage chunksZeroUsage initStState).2.completionTokens = 50
    ∧ (runPromptExchange parseZeroUsage quotedModels (str "test/model") msgsTen freshFile
        true chunksZeroUsage .ok).promptTokens = 3
    ∧ (runPromptExchange parseZeroUsage quotedModels (str "test/model") msgsTen freshFile
        true chunksZeroUsage .ok).promptTokens ≠ 0 := by
  refine ⟨rfl, rfl, rfl, by decide⟩

/-- Helper: `calculatePrice` on a model whose quote is found and has a
pricing object returns the per-category and total costs built from the
`|| 0`-defaulted price fields. -/
theorem calculatePrice_found (pt ct : Nat) (model : Str) (models : List ModelInfo)
    (mi : ModelInfo) (p : PricingInfo)
    (hf : models.find? (fun m => m.id == model) = some mi)
    (hp : mi.pricing = some p) :
    calculatePrice pt ct model models
      = some ⟨p.prompt.getD 0 * pt, p.completion.getD 0 * ct,
              p.prompt.getD 0 * pt + p.completion.getD 0 * ct, pt, ct, p⟩ := by
  simp only [calculatePrice, hf, hp]

/-- C8 (amended): supplied usage counters are used verbatim when they
are non-zero (a zero counter is replaced by the chars/4 estimate), and
for every model quote the reported cost is exactly promptTokens ×
promptPrice + completionTokens × completionPrice in exact arithmetic;
in particular counters `{prompt: 100, completion: 50}` with quote
`{prompt: 0.000005, completion: 0.000015}` yield a total cost of exactly
`0.00125`. -/
theorem cost_formula_exact :
    (∀ (parse : Str → ParseOutcome) (models : List ModelInfo) (model : Str)
        (apiMessages : List ChatMessage) (f0 : Str) (chunks : List Str),
        (processStream parse chunks initStState).2.promptTokens ≠ 0 →
        (processStream parse chunks initStState).2.completionTokens ≠ 0 →
        (runPromptExchange parse models model apiMessages f0 true chunks .ok).promptTokens
            = (processStream parse chunks initStState).2.promptTokens
        ∧ (runPromptExchange parse models model apiMessages f0 true chunks .ok).completionTokens
            = (processStream parse chunks initStState).2.completionTokens)
    ∧ (∀ (pt ct : Nat) (model : Str) (models : List ModelInfo) (mi : ModelInfo)
        (p : PricingInfo),
        models.find? (fun m => m.id == model) = some mi → mi.pricing = some p →
        calculatePrice pt ct model models
          = some ⟨p.prompt.getD 0 * pt, p.completion.getD 0 * ct,
                  p.prompt.getD 0 * pt + p.completion.getD 0 * ct, pt, ct, p⟩)
    ∧ (∃ r, calculatePrice 100 50 (str "test/model") quotedModels = some r
        ∧ r.totalCost = (0.00125 : ℚ)) := by
  refine ⟨?_, ?_, ?_⟩
  · intro parse models model apiMessages f0 chunks hpt hct
    constructor
    · show (if (processStream parse chunks initStState).2.promptTokens = 0
          then estPromptTokens apiMessages
          else (processStream parse chunks initStState).2.promptTokens) = _
      rw [if_neg hpt]
    · show (if (processStream parse chunks initStState).2.completionTokens = 0
          then estCompletionTokens (processStream parse chunks initStState).2.responseText
          else (processStream parse chunks initStState).2.completionTokens) = _
      rw [if_neg hct]
  · exact fun pt ct model models mi p hf hp =>
      calculatePrice_found pt ct model models mi p hf hp
  · refine ⟨_, calculatePrice_found 100 50 (str "test/model") quotedModels
      ⟨str "test/model", some ⟨some (5 / 1000000), some (15 / 1000000)⟩⟩
      ⟨some (5 / 1000000), some (15 / 1000000)⟩ rfl rfl, ?_⟩
    show (some (5 / 1000000 : ℚ)).getD 0 * (100 : Nat)
        + (some (15 / 1000000 : ℚ)).getD 0 * (50 : Nat) = (0.00125 : ℚ)
    norm_num

/-- C8 (witness): the amended theorem at a concrete stream supplying the
non-zero counters `{prompt: 100, completion: 50}` and at the concrete
quote `{prompt: 0.000005, completion: 0.000015}`. -/
theorem cost_formula_exact_witness :
    (runPromptExchange parseUsage100 quotedModels (str "test/model") msgsTen freshFile true
        chunksUsage100 .ok).promptTokens = 100
    ∧ calculatePrice 100 50 (str "test/model") quotedModels
        = some ⟨(some (5 / 1000000 : ℚ)).getD 0 * 100, (some (15 / 1000000 : ℚ)).getD 0 * 50,
                (some (5 / 1000000 : ℚ)).getD 0 * 100 + (some (15 / 1000000 : ℚ)).getD 0 * 50,
                100, 50, ⟨some (5 / 1000000), some (15 / 1000000)⟩⟩ := by
  constructor
  · exact ((cost_formula_exact.1 parseUsage100 quotedModels (str "test/model") msgsTen
      freshFile chunksUsage100 (by decide) (by decide)).1).trans (by decide)
  · exact cost_formula_exact.2.1 100 50 (str "test/model") quotedModels
      ⟨str "test/model", some ⟨some (5 / 1000000), some (15 / 1000000)⟩⟩
      ⟨some (5 / 1000000), some (15 / 1000000)⟩ rfl rfl

/-- C9: if the selected model has no matching quote in the models list,
`calculatePrice` yields `null`, so `runPrompt` prints no dollar figures
at all (the `if (pricing)` guard fails) — costs are reported as
unavailable, never as `0`. -/
theorem no_quote_unavailable (pt ct : Nat) (model : Str) (models : List ModelInfo)
    (parse : Str → ParseOutcome) (apiMessages : List ChatMessage) (f0 : Str)
    (chunks : List Str) (ok : Bool) (endK : StreamEnd)
    (h : models.find? (fun m => m.id == model) = none) :
    calculatePrice pt ct model models = none
    ∧ (runPromptExchange parse models model apiMessages f0 ok chunks endK).priceReport
        = none := by
  have hcp : ∀ a b : Nat, calculatePrice a b model models = none := by
    intro a b
    unfold calculatePrice
    rw [h]
  refine ⟨hcp pt ct, ?_⟩
  cases ok with
  | false => rfl
  | true =>
    cases endK with
    | ok =>
      show calculatePrice _ _ model models = none
      exact hcp _ _
    | transportError => rfl

/-- C9 (witness): the no-quote theorem at a concrete models list with no
entry for the selected model. -/
theorem no_quote_unavailable_witness :
    calculatePrice 100 50 (str "other/model") unquotedModels = none
    ∧ (runPromptExchange parseHello unquotedModels (str "other/model") [] freshFile true
        chunksHello .ok).priceReport = none :=
  no_quote_unavailable 100 50 (str "other/model") unquotedModels parseHello [] freshFile
    chunksHello true .ok (by decide)

/-- C10: `calculatePrice` returns `null` exactly when the model id has
no entry in the models list or its entry lacks a `pricing` object; when
a `pricing` object is present, a numeric cost record is always returned,
with an absent `prompt`/`completion` price field treated as `0` (so the
reported cost may be exactly `0` rather than unavailable). -/
theorem calculatePrice_null_iff (pt ct : Nat) (model : Str) (models : List ModelInfo) :
    (calculatePrice pt ct model models = none ↔
      (models.find? (fun m => m.id == model) = none
        ∨ ∃ mi, models.find? (fun m => m.id == model) = some mi ∧ mi.pricing = none))
    ∧ (∀ mi p, models.find? (fun m => m.id == model) = some mi → mi.pricing = some p →
        calculatePrice pt ct model models
          = some ⟨p.prompt.getD 0 * pt, p.completion.getD 0 * ct,
                  p.prompt.getD 0 * pt + p.completion.getD 0 * ct, pt, ct, p⟩
        ∧ (p.prompt = none →
            (calculatePrice pt ct model models).map PriceResult.promptCost = some 0)) := by
  constructor
  · cases hf : models.find? (fun m => m.id == model) with
    | none =>
      constructor
      · intro _
        exact Or.inl rfl
      · intro _
        unfold calculatePrice
        rw [hf]
    | some mi =>
      cases hp : mi.pricing with
      | none =>
        constructor
        · intro _
          exact Or.inr ⟨mi, rfl, hp⟩
        · intro _
          simp only [calculatePrice, hf, hp]
      | some p =>
        constructor
        · intro hnone
          rw [calculatePrice_found pt ct model models mi p hf hp] at hnone
          exact absurd hnone (by simp)
        · rintro (h0 | ⟨mi', hmi', hp'⟩)
          · exact absurd h0 (by simp)
          · cases Option.some.inj hmi'
            rw [hp] at hp'
            exact absurd hp' (by simp)
  · intro mi p hf hp
    refine ⟨calculatePrice_found pt ct model models mi p hf hp, fun hpnone => ?_⟩
    rw [calculatePrice_found pt ct model models mi p hf hp]
    simp [hpnone]

/-- C10 (witness): the null-iff theorem at a concrete models list whose
entry has a `pricing` object with the `prompt` field absent — a numeric
record is returned and the prompt cost is exactly `0`, not unavailable. -/
theorem calculatePrice_null_iff_witness :
    calculatePrice 7 9 (str "np/model") partialQuoteModels
      = some ⟨(Option.none : Option ℚ).getD 0 * 7, (some (2 / 1000000 : ℚ)).getD 0 * 9,
              (Option.none : Option ℚ).getD 0 * 7 + (some (2 / 1000000 : ℚ)).getD 0 * 9,
              7, 9, ⟨none, some (2 / 1000000)⟩⟩
    ∧ (calculatePrice 7 9 (str "np/model") partialQuoteModels).map PriceResult.promptCost
        = some 0 := by
  have h := (calculatePrice_null_iff 7 9 (str "np/model") partialQuoteModels).2
    ⟨str "np/model", some ⟨none, some (2 / 1000000)⟩⟩ ⟨none, some (2 / 1000000)⟩ rfl rfl
  exact ⟨h.1, h.2 rfl⟩
